import Mathlib

/-!
Verification of the VoiceForge per-call streaming engine against its
natural-language specification.

The development shallowly embeds the TypeScript sources:

* `audio-converter` (μ-law codec and 8k↔16k resampling),
* `jitter-buffer` (adaptive jitter buffer),
* `playback-controller` (rate adaptation, crossfade, concealment),
* `truevoice-client` (upstream WebSocket client reconnect policy),
* `streaming-pipeline` (orchestrator stop / disconnect handling),
* `telephony-service`'s `AudioSequencer`.

`Buffer` values are modelled as `List ℕ` of byte values (each element the
value of one byte, `0..255`); 16-bit samples use `ℤ`.  JavaScript number
arithmetic on these paths is exact integer or simple rational arithmetic and
is modelled with `ℤ`/`ℚ`; `Math.round` (round half toward +∞) is `jsRound`.
-/

set_option maxRecDepth 10000

namespace VoiceForge

/-- Embeds `Math.max(-32768, Math.min(32767, v))` — clamp into the signed 16-bit range. -/
def clamp16 (v : ℤ) : ℤ := max (-32768) (min 32767 v)

/-- Embeds `Math.round` in JavaScript: round half toward positive infinity. -/
def jsRound (q : ℚ) : ℤ := ⌊q + 1/2⌋

/-- Embeds `Buffer.readInt16LE` applied to the two bytes at some offset:
little-endian, two's complement. -/
def int16OfBytes (b0 b1 : ℕ) : ℤ :=
  let u : ℕ := b0 + 256 * b1
  if u < 32768 then (u : ℤ) else (u : ℤ) - 65536

/-- Embeds `Buffer.writeInt16LE v`: the two bytes written, little-endian
two's complement (all call sites write values inside the 16-bit range). -/
def bytesOfInt16 (v : ℤ) : List ℕ :=
  let u : ℕ := (v % 65536).toNat
  [u % 256, u / 256]

/-! ## Audio codec (`audio-converter.ts`) -/

/-- Body of the per-byte loop of `convertUlawToPcm16`: μ-law byte to a
clamped 16-bit linear sample.
`sign·((mantissa << (exponent+3)) − 0x84)` scaled by 256 and clamped. -/
def ulawDecodeByte (b : ℕ) : ℤ :=
  let sign : ℤ := if b &&& 0x80 ≠ 0 then -1 else 1
  let exponent : ℕ := (b &&& 0x70) >>> 4
  let mantissa : ℕ := (b &&& 0x0F) ||| 0x10
  let linear : ℤ := sign * ((mantissa : ℤ) * 2 ^ (exponent + 3) - 0x84)
  clamp16 (linear * 256)

/-- The `pcm8k` buffer built by `convertUlawToPcm16`'s loop: one decoded
16-bit sample (two bytes) per μ-law input byte. -/
def pcm8kOfUlaw : List ℕ → List ℕ
  | b :: rest => bytesOfInt16 (ulawDecodeByte b) ++ pcm8kOfUlaw rest
  | [] => []

/-- Read a byte buffer as consecutive little-endian 16-bit samples
(`readInt16LE` at offsets `0, 2, 4, …`); a trailing odd byte is ignored. -/
def samplesOfBytes : List ℕ → List ℤ
  | b0 :: b1 :: rest => int16OfBytes b0 b1 :: samplesOfBytes rest
  | _ => []

/-- Write samples back as consecutive little-endian 16-bit byte pairs
(`writeInt16LE` at offsets `0, 2, 4, …`). -/
def bytesOfSamples : List ℤ → List ℕ
  | s :: rest => bytesOfInt16 s ++ bytesOfSamples rest
  | [] => []

/-- Sample-level content of `resample8kTo16k`: output sample `2j` is input
sample `j`; output sample `2j+1` is `Math.round` of the midpoint of samples
`j` and `j+1` (for the final input sample, `srcIndexCeil` is clamped to the
last index, duplicating it).  `Math.round((s1+s2)/2) = ⌊(s1+s2+1)/2⌋`. -/
def interpolate2x : List ℤ → List ℤ
  | s1 :: s2 :: rest => s1 :: Int.fdiv (s1 + s2 + 1) 2 :: interpolate2x (s2 :: rest)
  | [s] => [s, s]
  | [] => []

/-- Embeds `resample8kTo16k`: linear interpolation doubling the sample rate. -/
def resample8kTo16k (pcm8k : List ℕ) : List ℕ :=
  bytesOfSamples (interpolate2x (samplesOfBytes pcm8k))

/-- Embeds `convertUlawToPcm16`: μ-law 8 kHz bytes to PCM16 16 kHz bytes. -/
def convertUlawToPcm16 (ulawData : List ℕ) : List ℕ :=
  resample8kTo16k (pcm8kOfUlaw ulawData)

/-- Embeds `resample16kTo8k`: decimation keeping every second sample.
`outputSamples = Math.floor((len/2)/2)`, and output sample `i` is the input
sample at byte offset `4i`; trailing bytes beyond a multiple of four are
ignored (the source performs no length validation and never throws). -/
def resample16kTo8k : List ℕ → List ℕ
  | b0 :: b1 :: _ :: _ :: rest => bytesOfInt16 (int16OfBytes b0 b1) ++ resample16kTo8k rest
  | _ => []

/-- Body of the per-sample loop of `convertPcm16ToUlaw`: linear 16-bit
sample to μ-law byte.  `exponent = Math.floor(Math.log2((abs >> 7) + 1))`
is `Nat.log2` of the same value. -/
def ulawEncodeSample (pcm16 : ℤ) : ℕ :=
  let linear : ℤ := clamp16 pcm16
  let sign : ℕ := if linear < 0 then 0x80 else 0x00
  let abs : ℕ := linear.natAbs
  let exponent : ℕ := Nat.log2 ((abs >>> 7) + 1)
  let mantissa : ℕ := (abs >>> (exponent + 3)) &&& 0x0F
  sign ||| (exponent <<< 4) ||| mantissa

/-- The μ-law encoding loop of `convertPcm16ToUlaw` over the `pcm8k`
buffer: one output byte per 16-bit sample (byte pair). -/
def ulawEncodeBytes : List ℕ → List ℕ
  | b0 :: b1 :: rest => ulawEncodeSample (int16OfBytes b0 b1) :: ulawEncodeBytes rest
  | _ => []

/-- Embeds `convertPcm16ToUlaw`: PCM16 16 kHz bytes to μ-law 8 kHz bytes. -/
def convertPcm16ToUlaw (pcm16Data : List ℕ) : List ℕ :=
  ulawEncodeBytes (resample16kTo8k pcm16Data)

/-! ### Codec length lemmas -/

theorem pcm8kOfUlaw_length : ∀ bs : List ℕ, (pcm8kOfUlaw bs).length = 2 * bs.length
  | [] => by simp [pcm8kOfUlaw]
  | b :: rest => by
      have ih := pcm8kOfUlaw_length rest
      simp [pcm8kOfUlaw, bytesOfInt16, ih]
      omega

theorem samplesOfBytes_length : ∀ bs : List ℕ, (samplesOfBytes bs).length = bs.length / 2
  | [] => by simp [samplesOfBytes]
  | [_] => by simp [samplesOfBytes]
  | b0 :: b1 :: rest => by
      have ih := samplesOfBytes_length rest
      simp [samplesOfBytes, ih]
      omega

theorem bytesOfSamples_length : ∀ ss : List ℤ, (bytesOfSamples ss).length = 2 * ss.length
  | [] => by simp [bytesOfSamples]
  | s :: rest => by
      have ih := bytesOfSamples_length rest
      simp [bytesOfSamples, bytesOfInt16, ih]
      omega

theorem interpolate2x_length : ∀ ss : List ℤ, (interpolate2x ss).length = 2 * ss.length
  | [] => by simp [interpolate2x]
  | [_] => by simp [interpolate2x]
  | s1 :: s2 :: rest => by
      have ih := interpolate2x_length (s2 :: rest)
      simp [interpolate2x] at ih ⊢
      omega

theorem resample16kTo8k_length :
    ∀ bs : List ℕ, (resample16kTo8k bs).length = 2 * (bs.length / 4)
  | [] => by simp [resample16kTo8k]
  | [_] => by simp [resample16kTo8k]
  | [_, _] => by simp [resample16kTo8k]
  | [_, _, _] => by simp [resample16kTo8k]
  | _ :: _ :: _ :: _ :: rest => by
      have ih := resample16kTo8k_length rest
      simp [resample16kTo8k, bytesOfInt16, ih]
      omega

theorem ulawEncodeBytes_length : ∀ bs : List ℕ, (ulawEncodeBytes bs).length = bs.length / 2
  | [] => by simp [ulawEncodeBytes]
  | [_] => by simp [ulawEncodeBytes]
  | _ :: _ :: rest => by
      have ih := ulawEncodeBytes_length rest
      simp [ulawEncodeBytes, ih]
      omega

theorem convertUlawToPcm16_length (x : List ℕ) :
    (convertUlawToPcm16 x).length = 4 * x.length := by
  unfold convertUlawToPcm16 resample8kTo16k
  rw [bytesOfSamples_length, interpolate2x_length, samplesOfBytes_length,
    pcm8kOfUlaw_length]
  omega

theorem convertPcm16ToUlaw_length (y : List ℕ) :
    (convertPcm16ToUlaw y).length = y.length / 4 := by
  unfold convertPcm16ToUlaw
  rw [ulawEncodeBytes_length, resample16kTo8k_length]
  omega

theorem resample16kTo8k_take :
    ∀ bs : List ℕ, resample16kTo8k (bs.take (4 * (bs.length / 4))) = resample16kTo8k bs
  | [] => rfl
  | [_] => by simp [resample16kTo8k]
  | [_, _] => by simp [resample16kTo8k]
  | [_, _, _] => by simp [resample16kTo8k]
  | b0 :: b1 :: b2 :: b3 :: rest => by
      have ih := resample16kTo8k_take rest
      have harith : 4 * ((b0 :: b1 :: b2 :: b3 :: rest).length / 4)
          = 4 * (rest.length / 4) + 4 := by
        simp only [List.length_cons]
        omega
      rw [harith]
      simp only [List.take_succ_cons]
      simp only [resample16kTo8k]
      rw [ih]

/-! ### Codec claims -/

/-- Claim C3 (counterexample): the claim says `convertPcm16ToUlaw` fails with an
`INVALID_FORMAT` error on every odd-length input.  The source contains no
validation and no failure path at all: `resample16kTo8k` computes
`Math.floor((len/2)/2)` output samples and all of its reads stay in bounds,
so an odd-length input (here the single byte `7`) produces a normal, defined
result (the empty buffer) rather than any error. -/
theorem C3_counterexample :
    convertPcm16ToUlaw [7] = [] ∧ ([7] : List ℕ).length % 2 = 1 :=
  ⟨rfl, rfl⟩

/-- Claim C3 (amended): `convertPcm16ToUlaw` never fails; for every input,
odd or even byte length, it returns a buffer of `⌊len/4⌋` bytes, and
trailing bytes beyond the greatest multiple of four are silently ignored. -/
theorem C3_no_failure_floor_length (bs : List ℕ) :
    (convertPcm16ToUlaw bs).length = bs.length / 4
      ∧ convertPcm16ToUlaw (bs.take (4 * (bs.length / 4))) = convertPcm16ToUlaw bs := by
  refine ⟨convertPcm16ToUlaw_length bs, ?_⟩
  unfold convertPcm16ToUlaw
  rw [resample16kTo8k_take]

/-- Claim C4: evaluating the encoder at a zero-amplitude input.  One 16 kHz
silence sample pair (four zero bytes) decimates to the single zero sample,
and the encoding loop yields `sign = 0x00`, `exponent = log2((0>>7)+1) = 0`,
`mantissa = 0`, so the output byte is `0x00` — not the all-ones byte `0xFF`
that the claim (and standard μ-law, which the source's comments say it
implements) requires.  The source omits the μ-law bias and complement. -/
theorem C4_zero_sample_encodes_to_zero_byte :
    convertPcm16ToUlaw [0, 0, 0, 0] = [0x00] ∧ (0x00 : ℕ) ≠ 0xFF := by
  refine ⟨?_, by decide⟩
  simp [convertPcm16ToUlaw, resample16kTo8k, ulawEncodeBytes, ulawEncodeSample,
    int16OfBytes, bytesOfInt16, clamp16, Nat.log2]

/-- Claim C5: for every companded input `x`, `convertUlawToPcm16 x` has byte
length exactly `4 · len(x)`, and the round trip
`convertPcm16ToUlaw (convertUlawToPcm16 x)` has byte length `len(x)`. -/
theorem C5_roundtrip_lengths (x : List ℕ) :
    (convertUlawToPcm16 x).length = 4 * x.length
      ∧ (convertPcm16ToUlaw (convertUlawToPcm16 x)).length = x.length := by
  refine ⟨convertUlawToPcm16_length x, ?_⟩
  rw [convertPcm16ToUlaw_length, convertUlawToPcm16_length]
  omega

/-! ## Playback controller (`playback-controller.ts`)

Speeds, rates, buffer levels and times are JavaScript numbers on paths that
only add, compare and clamp; they are modelled with `ℚ`. -/

structure PlaybackConfig where
  minSpeed : ℚ
  maxSpeed : ℚ
  baseSpeed : ℚ
  bufferLowThreshold : ℚ
  bufferHighThreshold : ℚ
  crossfadeDurationMs : ℚ
deriving DecidableEq

/-- The defaulted configuration built by the constructor from `{}`. -/
def defaultPlaybackConfig : PlaybackConfig :=
  { minSpeed := 95/100, maxSpeed := 105/100, baseSpeed := 1,
    bufferLowThreshold := 2/10, bufferHighThreshold := 8/10,
    crossfadeDurationMs := 10 }

structure PlaybackState where
  isPlaying : Bool
  isPaused : Bool
  isBuffering : Bool
  currentSpeed : ℚ
  bufferLevel : ℚ
  lastPlaybackTime : ℚ
deriving DecidableEq

/-- Embeds `PlaybackController`'s mutable fields: its `state` record plus the
private `playbackStartTime`, `lastChunkTime`, `speedAdjustment` and
`bufferLevel` class fields. -/
structure ControllerState where
  state : PlaybackState
  playbackStartTime : ℚ
  lastChunkTime : ℚ
  speedAdjustment : ℚ
  bufferLevel : ℚ
deriving DecidableEq

/-- Controller immediately after construction. -/
def initController (cfg : PlaybackConfig) : ControllerState :=
  { state := { isPlaying := false, isPaused := false, isBuffering := false,
               currentSpeed := cfg.baseSpeed, bufferLevel := 0, lastPlaybackTime := 0 },
    playbackStartTime := 0, lastChunkTime := 0, speedAdjustment := 0, bufferLevel := 0 }

/-- Embeds `start()`; `now` is `getCurrentTime()`. -/
def controllerStart (now : ℚ) (c : ControllerState) : ControllerState :=
  { c with
    state := { c.state with isPlaying := true, isPaused := false, isBuffering := false },
    playbackStartTime := now, lastChunkTime := now }

/-- Embeds `pause()`. -/
def controllerPause (c : ControllerState) : ControllerState :=
  { c with state := { c.state with isPaused := true, isPlaying := false } }

/-- Embeds `resume()`; `now` is `getCurrentTime()`. -/
def controllerResume (now : ℚ) (c : ControllerState) : ControllerState :=
  { c with
    state := { c.state with isPaused := false, isPlaying := true },
    playbackStartTime := now - (c.lastChunkTime - c.playbackStartTime) }

/-- Embeds `stop()`: halts playback and restores the base speed. -/
def controllerStop (cfg : PlaybackConfig) (c : ControllerState) : ControllerState :=
  { c with
    state := { c.state with
               isPlaying := false
               isPaused := false
               isBuffering := false
               currentSpeed := cfg.baseSpeed },
    speedAdjustment := 0 }

/-- Embeds `updateBufferLevel(level)`: clamp the level into `[0,1]`, pick a speed
adjustment from the watermarks, and clamp the resulting speed into
`[minSpeed, maxSpeed]`. -/
def controllerUpdateBufferLevel (cfg : PlaybackConfig) (level : ℚ)
    (c : ControllerState) : ControllerState :=
  let lvl := max 0 (min 1 level)
  let adjBuf : ℚ × Bool :=
    if lvl < cfg.bufferLowThreshold then (-(2/100 : ℚ), true)
    else if lvl > cfg.bufferHighThreshold then ((2/100 : ℚ), false)
    else (0, false)
  let newSpeed := cfg.baseSpeed + adjBuf.1
  { c with
    bufferLevel := lvl,
    speedAdjustment := adjBuf.1,
    state := { c.state with
               bufferLevel := lvl
               isBuffering := adjBuf.2
               currentSpeed := max cfg.minSpeed (min cfg.maxSpeed newSpeed) } }

/-- One external call on the controller. -/
inductive PlaybackOp
  | start (now : ℚ)
  | pause
  | resume (now : ℚ)
  | stop
  | updateBufferLevel (level : ℚ)

def applyPlaybackOp (cfg : PlaybackConfig) (c : ControllerState) :
    PlaybackOp → ControllerState
  | .start now => controllerStart now c
  | .pause => controllerPause c
  | .resume now => controllerResume now c
  | .stop => controllerStop cfg c
  | .updateBufferLevel lvl => controllerUpdateBufferLevel cfg lvl c

/-- The controller state after construction and an arbitrary call sequence. -/
def runPlayback (cfg : PlaybackConfig) (ops : List PlaybackOp) : ControllerState :=
  ops.foldl (applyPlaybackOp cfg) (initController cfg)

theorem speed_bounds_step (cfg : PlaybackConfig) (c : ControllerState) (op : PlaybackOp)
    (h1 : cfg.minSpeed ≤ cfg.baseSpeed) (h2 : cfg.baseSpeed ≤ cfg.maxSpeed)
    (hc : cfg.minSpeed ≤ c.state.currentSpeed ∧ c.state.currentSpeed ≤ cfg.maxSpeed) :
    cfg.minSpeed ≤ (applyPlaybackOp cfg c op).state.currentSpeed
      ∧ (applyPlaybackOp cfg c op).state.currentSpeed ≤ cfg.maxSpeed := by
  cases op with
  | start now => exact hc
  | pause => exact hc
  | resume now => exact hc
  | stop =>
      simp only [applyPlaybackOp, controllerStop]
      exact ⟨h1, h2⟩
  | updateBufferLevel lvl =>
      simp only [applyPlaybackOp, controllerUpdateBufferLevel]
      constructor
      · exact le_max_left _ _
      · exact max_le (le_trans h1 h2) (min_le_left _ _)

theorem speed_bounds_run (cfg : PlaybackConfig) (ops : List PlaybackOp)
    (h1 : cfg.minSpeed ≤ cfg.baseSpeed) (h2 : cfg.baseSpeed ≤ cfg.maxSpeed) :
    ∀ c : ControllerState,
      cfg.minSpeed ≤ c.state.currentSpeed ∧ c.state.currentSpeed ≤ cfg.maxSpeed →
      cfg.minSpeed ≤ (ops.foldl (applyPlaybackOp cfg) c).state.currentSpeed
        ∧ (ops.foldl (applyPlaybackOp cfg) c).state.currentSpeed ≤ cfg.maxSpeed := by
  induction ops with
  | nil => intro c hc; exact hc
  | cons op rest ih =>
      intro c hc
      exact ih _ (speed_bounds_step cfg c op h1 h2 hc)

/-- Claim C7: for any config with `minSpeed ≤ baseSpeed ≤ maxSpeed`, after
construction and after every sequence of `start`/`pause`/`resume`/`stop`/
`updateBufferLevel` calls, `currentSpeed` lies within
`[minSpeed, maxSpeed]`. -/
theorem C7_rate_bounded (cfg : PlaybackConfig) (ops : List PlaybackOp)
    (h1 : cfg.minSpeed ≤ cfg.baseSpeed) (h2 : cfg.baseSpeed ≤ cfg.maxSpeed) :
    cfg.minSpeed ≤ (runPlayback cfg ops).state.currentSpeed
      ∧ (runPlayback cfg ops).state.currentSpeed ≤ cfg.maxSpeed :=
  speed_bounds_run cfg ops h1 h2 (initController cfg) ⟨h1, h2⟩

/-- Claim C7 witness: the theorem applied to the defaulted configuration and a
concrete call sequence. -/
theorem C7_rate_bounded_witness :
    defaultPlaybackConfig.minSpeed
        ≤ (runPlayback defaultPlaybackConfig
            [.updateBufferLevel (9/10), .start 0, .updateBufferLevel (1/10),
             .pause, .resume 5, .stop]).state.currentSpeed
      ∧ (runPlayback defaultPlaybackConfig
            [.updateBufferLevel (9/10), .start 0, .updateBufferLevel (1/10),
             .pause, .resume 5, .stop]).state.currentSpeed
        ≤ defaultPlaybackConfig.maxSpeed :=
  C7_rate_bounded defaultPlaybackConfig _
    (by norm_num [defaultPlaybackConfig]) (by norm_num [defaultPlaybackConfig])

/-! ### Crossfade (`crossfadeChunks`)

The source works on byte buffers of little-endian 16-bit samples: every read
and write is a whole aligned sample, `minLength` counts bytes and the ramp
is `crossfadeSamples * 2` bytes, and the per-byte-pair weight is
`t = i / minLength = j / (minLength/2)` at sample index `j = i/2`.  The
model therefore works directly on the sample sequences, with all byte
quantities divided by two. -/

/-- Embeds `Math.floor((crossfadeDurationMs / 1000) * 16000)` — the ramp length in
samples. -/
def crossfadeSamplesOf (cfg : PlaybackConfig) : ℕ :=
  (⌊cfg.crossfadeDurationMs / 1000 * 16000⌋).toNat

/-- Sample `j` of the crossfaded section when the overlap is `m` samples:
`Math.round(chunk1[chunk1.length - m + j] * (1 - t) + chunk2[j] * t)` with
`t = j / m`. -/
def crossfadeMixAt (chunk1 chunk2 : List ℤ) (m j : ℕ) : ℤ :=
  jsRound ((chunk1.getD (chunk1.length - m + j) 0 : ℚ) * (1 - (j : ℚ) / (m : ℚ))
    + (chunk2.getD j 0 : ℚ) * ((j : ℚ) / (m : ℚ)))

/-- Embeds `crossfadeChunks(chunk1, chunk2)`: if `minLength` is zero, plain
concatenation; otherwise the head of `chunk1`, the mixed overlap, and the
tail of `chunk2`. -/
def crossfadeChunks (cfg : PlaybackConfig) (chunk1 chunk2 : List ℤ) : List ℤ :=
  let m := min (min chunk1.length chunk2.length) (crossfadeSamplesOf cfg)
  if m = 0 then chunk1 ++ chunk2
  else
    chunk1.take (chunk1.length - m)
      ++ (List.range m).map (crossfadeMixAt chunk1 chunk2 m)
      ++ chunk2.drop m

/-- Claim C8 (counterexample): with the defaulted configuration the ramp is
160 samples; the claim says a chunk shorter than the ramp forces plain
concatenation.  But with `chunk1 = [1000]` (one sample, shorter than the
ramp) the source still overlaps over `min(1, 2, 160) = 1` sample, producing
`[1000, 3000]` — not the concatenation `[1000, 2000, 3000]`; simple
concatenation happens only when the computed overlap is zero. -/
theorem C8_counterexample :
    crossfadeChunks defaultPlaybackConfig [1000] [2000, 3000] = [1000, 3000]
      ∧ crossfadeChunks defaultPlaybackConfig [1000] [2000, 3000]
          ≠ [1000] ++ [2000, 3000]
      ∧ ([1000] : List ℤ).length < crossfadeSamplesOf defaultPlaybackConfig := by
  have hr : crossfadeSamplesOf defaultPlaybackConfig = 160 := by
    norm_num [crossfadeSamplesOf, defaultPlaybackConfig]
    rfl
  have h : crossfadeChunks defaultPlaybackConfig [1000] [2000, 3000] = [1000, 3000] := by
    simp only [crossfadeChunks, hr]
    norm_num [crossfadeMixAt, jsRound, List.range_succ]
  refine ⟨h, ?_, ?_⟩
  · rw [h]; decide
  · rw [hr]; decide

/-- Claim C8 (amended): `crossfadeChunks` falls back to plain concatenation
exactly when the computed overlap `min(len(a), len(b), ramp)` is zero
(either chunk empty, or a zero ramp); otherwise it overlaps over that many
samples — the full ramp only when both chunks are at least the ramp length,
in which case the result is `a`'s head, the linearly mixed ramp
(weights `1 − t` and `t`), and `b`'s tail, of total length
`len(a) + len(b) − ramp`. -/
theorem C8_crossfade_characterization (cfg : PlaybackConfig) (a b : List ℤ)
    (h1 : crossfadeSamplesOf cfg ≤ a.length) (h2 : crossfadeSamplesOf cfg ≤ b.length) :
    (min (min a.length b.length) (crossfadeSamplesOf cfg) = 0
        → crossfadeChunks cfg a b = a ++ b)
      ∧ crossfadeChunks cfg a b
          = a.take (a.length - crossfadeSamplesOf cfg)
            ++ (List.range (crossfadeSamplesOf cfg)).map
                (crossfadeMixAt a b (crossfadeSamplesOf cfg))
            ++ b.drop (crossfadeSamplesOf cfg)
      ∧ (crossfadeChunks cfg a b).length
          = a.length + b.length - crossfadeSamplesOf cfg := by
  have hm : min (min a.length b.length) (crossfadeSamplesOf cfg)
      = crossfadeSamplesOf cfg := by omega
  constructor
  · intro h0
    rw [hm] at h0
    simp [crossfadeChunks, hm, h0]
  · have hres : crossfadeChunks cfg a b
        = a.take (a.length - crossfadeSamplesOf cfg)
          ++ (List.range (crossfadeSamplesOf cfg)).map
              (crossfadeMixAt a b (crossfadeSamplesOf cfg))
          ++ b.drop (crossfadeSamplesOf cfg) := by
      by_cases h0 : crossfadeSamplesOf cfg = 0
      · simp [crossfadeChunks, hm, h0]
      · unfold crossfadeChunks
        rw [hm, if_neg h0]
    refine ⟨hres, ?_⟩
    rw [hres]
    simp only [List.length_append, List.length_take, List.length_map,
      List.length_range, List.length_drop]
    omega

/-- Claim C8 witness: the amended theorem applied at a configuration with a
one-sample ramp and two two-sample chunks. -/
theorem C8_crossfade_characterization_witness :
    crossfadeChunks { defaultPlaybackConfig with crossfadeDurationMs := 1/16 }
        [10, 20] [30, 40]
      = ([10, 20] : List ℤ).take (([10, 20] : List ℤ).length
            - crossfadeSamplesOf { defaultPlaybackConfig with crossfadeDurationMs := 1/16 })
        ++ (List.range (crossfadeSamplesOf
              { defaultPlaybackConfig with crossfadeDurationMs := 1/16 })).map
            (crossfadeMixAt [10, 20] [30, 40]
              (crossfadeSamplesOf { defaultPlaybackConfig with crossfadeDurationMs := 1/16 }))
        ++ ([30, 40] : List ℤ).drop
            (crossfadeSamplesOf { defaultPlaybackConfig with crossfadeDurationMs := 1/16 }) :=
  (C8_crossfade_characterization
      { defaultPlaybackConfig with crossfadeDurationMs := 1/16 } [10, 20] [30, 40]
      (by norm_num [crossfadeSamplesOf, defaultPlaybackConfig])
      (by norm_num [crossfadeSamplesOf, defaultPlaybackConfig])).2.1

/-! ## Jitter buffer (`jitter-buffer.ts`)

Wall-clock instants (`Date.now()`) are supplied as explicit `now`
parameters.  `Math.sqrt` inside `calculateJitter` is a floating-point
square root whose value no verified claim depends on; the development is
parametrised over the square-root function `sqrtFn`. -/

structure JitterBufferConfig where
  minBufferMs : ℚ
  maxBufferMs : ℚ
  targetBufferMs : ℚ
  adaptationIntervalMs : ℚ
deriving DecidableEq

/-- The defaulted configuration built by the constructor from `{}`. -/
def defaultJitterConfig : JitterBufferConfig :=
  { minBufferMs := 20, maxBufferMs := 500, targetBufferMs := 100,
    adaptationIntervalMs := 100 }

structure JitterAudioChunk where
  data : List ℕ
  sequence : ℕ
  timestamp : ℤ
  receivedAt : ℤ
deriving DecidableEq

structure JitterStatistics where
  currentBufferMs : ℚ
  targetBufferMs : ℚ
  jitterMs : ℚ
  packetLoss : ℕ
  bufferUnderruns : ℕ
  bufferOverruns : ℕ
  totalPackets : ℕ
  outOfOrderPackets : ℕ
deriving DecidableEq

structure JitterBufferState where
  buffer : List JitterAudioChunk
  lastAdaptationTime : ℤ
  arrivalTimes : List ℤ
  statistics : JitterStatistics
  expectedSequence : ℕ
deriving DecidableEq

/-- Jitter buffer immediately after construction. -/
def initJitterState (cfg : JitterBufferConfig) : JitterBufferState :=
  { buffer := [], lastAdaptationTime := 0, arrivalTimes := [],
    statistics := { currentBufferMs := 0, targetBufferMs := cfg.targetBufferMs,
                    jitterMs := 0, packetLoss := 0, bufferUnderruns := 0,
                    bufferOverruns := 0, totalPackets := 0, outOfOrderPackets := 0 },
    expectedSequence := 0 }

/-- Embeds `getCurrentBufferMs()`: number of buffered chunks times the assumed
20 ms chunk duration. -/
def getCurrentBufferMs (s : JitterBufferState) : ℚ :=
  if s.buffer.isEmpty then 0 else (s.buffer.length : ℚ) * 20

/-- Embeds `calculateJitter()`: standard deviation of the recorded inter-arrival
times (zero when fewer than two measurements). -/
def calculateJitter (sqrtFn : ℚ → ℚ) (arrivalTimes : List ℤ) : ℚ :=
  if arrivalTimes.length < 2 then 0
  else
    let mean : ℚ := ((arrivalTimes.map (fun t => (t : ℚ))).sum) / (arrivalTimes.length : ℚ)
    let variance : ℚ :=
      ((arrivalTimes.map (fun t => ((t : ℚ) - mean) ^ 2)).sum) / (arrivalTimes.length : ℚ)
    sqrtFn variance

/-- Embeds `adaptBufferSize()`: at most every `adaptationIntervalMs`, recompute the
jitter and set the target to
`min(maxBufferMs, max(minBufferMs, minBufferMs + jitter · 2))`. -/
def adaptBufferSize (sqrtFn : ℚ → ℚ) (cfg : JitterBufferConfig) (now : ℤ)
    (s : JitterBufferState) : JitterBufferState :=
  if ((now - s.lastAdaptationTime : ℤ) : ℚ) < cfg.adaptationIntervalMs then s
  else
    let jitterMs := calculateJitter sqrtFn s.arrivalTimes
    let newTarget :=
      min cfg.maxBufferMs (max cfg.minBufferMs (cfg.minBufferMs + jitterMs * 2))
    { s with
      lastAdaptationTime := now,
      statistics := { s.statistics with jitterMs := jitterMs, targetBufferMs := newTarget } }

/-- Embeds `dropOldestChunks(targetReductionMs)`: drop
`Math.ceil(targetReductionMs / 20)` chunks from the front. -/
def dropOldestChunks (targetReductionMs : ℚ) (buffer : List JitterAudioChunk) :
    List JitterAudioChunk :=
  buffer.drop (⌈targetReductionMs / 20⌉).toNat

/-- Embeds `insertChunkInOrder(chunk)`: insert before the first buffered chunk with
a strictly greater sequence number, else append. -/
def insertChunkInOrder (chunk : JitterAudioChunk) :
    List JitterAudioChunk → List JitterAudioChunk
  | [] => [chunk]
  | c :: rest =>
      if chunk.sequence < c.sequence then chunk :: c :: rest
      else c :: insertChunkInOrder chunk rest

/-- Embeds `addChunk(chunk)` at wall-clock instant `now`. -/
def addChunk (sqrtFn : ℚ → ℚ) (cfg : JitterBufferConfig) (now : ℤ)
    (chunk : JitterAudioChunk) (s : JitterBufferState) : JitterBufferState :=
  let stats1 := { s.statistics with totalPackets := s.statistics.totalPackets + 1 }
  let arrivalTimes :=
    if s.arrivalTimes.isEmpty then [(0 : ℤ)]
    else
      let interArrivalTime := now - s.arrivalTimes.getLastD 0
      let l := s.arrivalTimes ++ [interArrivalTime]
      if l.length > 50 then l.drop 1 else l
  let chunk := { chunk with receivedAt := now }
  let bufExpStats :=
    if chunk.sequence < s.expectedSequence then
      (insertChunkInOrder chunk s.buffer, s.expectedSequence,
       { stats1 with outOfOrderPackets := stats1.outOfOrderPackets + 1 })
    else if chunk.sequence = s.expectedSequence then
      (s.buffer ++ [chunk], chunk.sequence + 1, stats1)
    else
      (s.buffer ++ [chunk], chunk.sequence + 1,
       { stats1 with packetLoss := stats1.packetLoss + (chunk.sequence - s.expectedSequence) })
  let s1 : JitterBufferState :=
    { s with buffer := bufExpStats.1, expectedSequence := bufExpStats.2.1,
             statistics := bufExpStats.2.2, arrivalTimes := arrivalTimes }
  let currentBufferMs := getCurrentBufferMs s1
  let s2 :=
    if currentBufferMs > cfg.maxBufferMs then
      { s1 with
        statistics :=
          { s1.statistics with bufferOverruns := s1.statistics.bufferOverruns + 1 },
        buffer := dropOldestChunks (currentBufferMs - cfg.maxBufferMs) s1.buffer }
    else s1
  adaptBufferSize sqrtFn cfg now s2

/-- Embeds `getNextChunk()`: the returned chunk (if any) paired with the buffer
state after the call. -/
def getNextChunk (cfg : JitterBufferConfig) (s : JitterBufferState) :
    Option JitterAudioChunk × JitterBufferState :=
  let currentBufferMs := getCurrentBufferMs s
  if currentBufferMs < cfg.minBufferMs then
    (none,
     { s with statistics :=
        { s.statistics with bufferUnderruns := s.statistics.bufferUnderruns + 1 } })
  else if currentBufferMs < s.statistics.targetBufferMs then (none, s)
  else
    match s.buffer with
    | [] => (none, s)
    | c :: rest =>
        (some c,
         { s with buffer := rest,
                  statistics :=
                    { s.statistics with
                      currentBufferMs := getCurrentBufferMs { s with buffer := rest } } })

/-- One operation on a jitter buffer: an enqueue at some instant, or a
dequeue. -/
inductive JitterOp
  | add (chunk : JitterAudioChunk) (now : ℤ)
  | deq

/-- Fold one operation, accumulating the successfully dequeued chunks. -/
def jitterStep (sqrtFn : ℚ → ℚ) (cfg : JitterBufferConfig)
    (acc : JitterBufferState × List JitterAudioChunk) (op : JitterOp) :
    JitterBufferState × List JitterAudioChunk :=
  match op with
  | .add c t => (addChunk sqrtFn cfg t c acc.1, acc.2)
  | .deq =>
      let r := getNextChunk cfg acc.1
      (r.2, acc.2 ++ r.1.toList)

/-- The buffer state and dequeued-chunk trace after an operation sequence. -/
def runJitter (sqrtFn : ℚ → ℚ) (cfg : JitterBufferConfig) (ops : List JitterOp) :
    JitterBufferState × List JitterAudioChunk :=
  ops.foldl (jitterStep sqrtFn cfg) (initJitterState cfg, [])

/-- Ordering of buffered chunks by sequence number. -/
def chunkLE (a b : JitterAudioChunk) : Prop := a.sequence ≤ b.sequence

/-- The reachable-state invariant of the jitter buffer: the internal list is
sorted by sequence, and every buffered sequence is below the expected
cursor. -/
def jbInv (s : JitterBufferState) : Prop :=
  s.buffer.Pairwise chunkLE ∧ ∀ c ∈ s.buffer, c.sequence < s.expectedSequence

theorem insertChunkInOrder_mem (c x : JitterAudioChunk) :
    ∀ l : List JitterAudioChunk, x ∈ insertChunkInOrder c l → x = c ∨ x ∈ l
  | [] => by
      intro hx
      simp only [insertChunkInOrder, List.mem_singleton] at hx
      exact Or.inl hx
  | b :: rest => by
      intro hx
      unfold insertChunkInOrder at hx
      by_cases hcond : c.sequence < b.sequence
      · rw [if_pos hcond] at hx
        rcases List.mem_cons.mp hx with h | h
        · exact Or.inl h
        · exact Or.inr h
      · rw [if_neg hcond] at hx
        rcases List.mem_cons.mp hx with h | h
        · exact Or.inr (h ▸ List.mem_cons_self b rest)
        · rcases insertChunkInOrder_mem c x rest h with h' | h'
          · exact Or.inl h'
          · exact Or.inr (List.mem_cons_of_mem b h')

theorem insertChunkInOrder_pairwise (c : JitterAudioChunk) :
    ∀ l : List JitterAudioChunk, l.Pairwise chunkLE →
      (insertChunkInOrder c l).Pairwise chunkLE
  | [] => by
      intro _
      simp [insertChunkInOrder, chunkLE]
  | b :: rest => by
      intro hp
      rcases List.pairwise_cons.mp hp with ⟨hb, hrest⟩
      unfold insertChunkInOrder
      by_cases hcond : c.sequence < b.sequence
      · rw [if_pos hcond]
        refine List.pairwise_cons.mpr ⟨?_, hp⟩
        intro d hd
        rcases List.mem_cons.mp hd with h | h
        · exact h ▸ le_of_lt hcond
        · exact le_trans (le_of_lt hcond) (hb d h)
      · rw [if_neg hcond]
        refine List.pairwise_cons.mpr ⟨?_, insertChunkInOrder_pairwise c rest hrest⟩
        intro d hd
        rcases insertChunkInOrder_mem c d rest hd with h | h
        · rw [h]
          exact le_of_not_lt hcond
        · exact hb d h

theorem adaptBufferSize_preserves (sqrtFn : ℚ → ℚ) (cfg : JitterBufferConfig)
    (now : ℤ) (s : JitterBufferState) :
    (adaptBufferSize sqrtFn cfg now s).buffer = s.buffer
      ∧ (adaptBufferSize sqrtFn cfg now s).expectedSequence = s.expectedSequence := by
  unfold adaptBufferSize
  split <;> simp

/-- Specification helper: the buffer produced by `addChunk`'s ordering step
(before the overrun eviction). -/
def addChunkBuffer (chunk : JitterAudioChunk) (s : JitterBufferState) :
    List JitterAudioChunk :=
  if chunk.sequence < s.expectedSequence then insertChunkInOrder chunk s.buffer
  else s.buffer ++ [chunk]

/-- Specification helper: the expected-sequence cursor after `addChunk`. -/
def addChunkExpected (chunk : JitterAudioChunk) (s : JitterBufferState) : ℕ :=
  if chunk.sequence < s.expectedSequence then s.expectedSequence
  else chunk.sequence + 1

theorem addChunk_spec (sqrtFn : ℚ → ℚ) (cfg : JitterBufferConfig) (now : ℤ)
    (chunk : JitterAudioChunk) (s : JitterBufferState) :
    ∃ n : ℕ,
      (addChunk sqrtFn cfg now chunk s).buffer
          = (addChunkBuffer { chunk with receivedAt := now } s).drop n
        ∧ (addChunk sqrtFn cfg now chunk s).expectedSequence
          = addChunkExpected { chunk with receivedAt := now } s := by
  unfold addChunk
  dsimp only
  rw [(adaptBufferSize_preserves _ _ _ _).1, (adaptBufferSize_preserves _ _ _ _).2]
  unfold addChunkBuffer addChunkExpected dropOldestChunks
  split_ifs <;>
    first
      | exact ⟨_, rfl, rfl⟩
      | exact ⟨0, by simp⟩

theorem addChunkBuffer_pairwise (chunk : JitterAudioChunk) (s : JitterBufferState)
    (h : jbInv s) : (addChunkBuffer chunk s).Pairwise chunkLE := by
  obtain ⟨hp, hb⟩ := h
  unfold addChunkBuffer
  split
  · exact insertChunkInOrder_pairwise chunk s.buffer hp
  · next hge =>
      rw [List.pairwise_append]
      refine ⟨hp, by simp, ?_⟩
      intro a ha b hbmem
      rcases List.mem_singleton.mp hbmem with rfl
      exact le_trans (le_of_lt (hb a ha)) (le_of_not_lt hge)

theorem addChunkBuffer_bound (chunk : JitterAudioChunk) (s : JitterBufferState)
    (h : jbInv s) :
    ∀ c ∈ addChunkBuffer chunk s, c.sequence < addChunkExpected chunk s := by
  obtain ⟨hp, hb⟩ := h
  intro c hc
  unfold addChunkBuffer at hc
  unfold addChunkExpected
  split at hc
  · next hlt =>
      rw [if_pos hlt]
      rcases insertChunkInOrder_mem chunk c s.buffer hc with rfl | hmem
      · exact hlt
      · exact hb c hmem
  · next hge =>
      rw [if_neg hge]
      rcases List.mem_append.mp hc with hmem | hmem
      · exact lt_of_lt_of_le (hb c hmem)
          (le_trans (le_of_not_lt hge) (Nat.le_succ _))
      · rcases List.mem_singleton.mp hmem with rfl
        exact Nat.lt_succ_self _

theorem jbInv_addChunk (sqrtFn : ℚ → ℚ) (cfg : JitterBufferConfig) (now : ℤ)
    (chunk : JitterAudioChunk) (s : JitterBufferState) (h : jbInv s) :
    jbInv (addChunk sqrtFn cfg now chunk s) := by
  obtain ⟨n, hbuf, hexp⟩ := addChunk_spec sqrtFn cfg now chunk s
  constructor
  · rw [hbuf]
    exact List.Pairwise.sublist (List.drop_sublist n _)
      (addChunkBuffer_pairwise _ s h)
  · intro c hc
    rw [hbuf] at hc
    rw [hexp]
    exact addChunkBuffer_bound _ s h c (List.mem_of_mem_drop hc)

theorem jbInv_getNextChunk (cfg : JitterBufferConfig) (s : JitterBufferState)
    (h : jbInv s) : jbInv (getNextChunk cfg s).2 := by
  obtain ⟨hp, hb⟩ := h
  unfold getNextChunk
  dsimp only
  split
  · exact ⟨hp, hb⟩
  · split
    · exact ⟨hp, hb⟩
    · split
      · exact ⟨hp, hb⟩
      · rename_i c rest hbuf
        constructor
        · exact (List.pairwise_cons.mp (hbuf ▸ hp)).2
        · intro d hd
          exact hb d (by rw [hbuf]; exact List.mem_cons_of_mem c hd)

theorem jbInv_run (sqrtFn : ℚ → ℚ) (cfg : JitterBufferConfig) (ops : List JitterOp) :
    jbInv (runJitter sqrtFn cfg ops).1 := by
  have haux : ∀ (l : List JitterOp) (acc : JitterBufferState × List JitterAudioChunk),
      jbInv acc.1 → jbInv ((l.foldl (jitterStep sqrtFn cfg) acc).1) := by
    intro l
    induction l with
    | nil => intro acc hacc; exact hacc
    | cons op rest ih =>
        intro acc hacc
        apply ih
        cases op with
        | add c t => exact jbInv_addChunk sqrtFn cfg t c acc.1 hacc
        | deq => exact jbInv_getNextChunk cfg acc.1 hacc
  exact haux ops (initJitterState cfg, []) (by constructor <;> simp [initJitterState])

/-- Claim C9 (counterexample): the claim demands that the sequences of any two
dequeued frames be strictly increasing in dequeue order.  With the default
configuration, enqueue sequences `5,6,7,8,9`, dequeue (yields `5`), then
enqueue late frames `0,1,2,3` and dequeue again: the second dequeue yields
sequence `0` after sequence `5`, and `¬(5 < 0)`. -/
theorem C9_counterexample :
    ((runJitter (fun _ => 0) defaultJitterConfig
        [.add ⟨[], 5, 0, 0⟩ 0, .add ⟨[], 6, 0, 0⟩ 0, .add ⟨[], 7, 0, 0⟩ 0,
         .add ⟨[], 8, 0, 0⟩ 0, .add ⟨[], 9, 0, 0⟩ 0, .deq,
         .add ⟨[], 0, 0, 0⟩ 0, .add ⟨[], 1, 0, 0⟩ 0, .add ⟨[], 2, 0, 0⟩ 0,
         .add ⟨[], 3, 0, 0⟩ 0, .deq]).2.map (fun c => c.sequence)) = [5, 0]
      ∧ ¬ (5 : ℕ) < 0 := by
  constructor
  · norm_num [runJitter, jitterStep, addChunk, getNextChunk, initJitterState,
      defaultJitterConfig, getCurrentBufferMs, adaptBufferSize, insertChunkInOrder,
      dropOldestChunks, calculateJitter]
  · decide

/-- Claim C9 (amended): the buffer is always ordered by sequence (so frames
dequeued with no intervening enqueue have non-decreasing sequences), and a
successful dequeue returns a frame whose sequence is at most that of every
frame remaining in the buffer.  The strict global ordering of the original
claim fails only for a frame enqueued after a higher-sequence frame has
already been dequeued (or a duplicate sequence enqueued twice). -/
theorem C9_buffer_sorted_dequeue_min (sqrtFn : ℚ → ℚ) (cfg : JitterBufferConfig)
    (ops : List JitterOp) (c : JitterAudioChunk) (s' : JitterBufferState)
    (hdeq : getNextChunk cfg (runJitter sqrtFn cfg ops).1 = (some c, s')) :
    (runJitter sqrtFn cfg ops).1.buffer.Pairwise chunkLE
      ∧ ∀ d ∈ s'.buffer, c.sequence ≤ d.sequence := by
  have hinv := jbInv_run sqrtFn cfg ops
  refine ⟨hinv.1, ?_⟩
  unfold getNextChunk at hdeq
  dsimp only at hdeq
  split at hdeq
  · exact absurd (congrArg Prod.fst hdeq) (by simp)
  · split at hdeq
    · exact absurd (congrArg Prod.fst hdeq) (by simp)
    · split at hdeq
      · exact absurd (congrArg Prod.fst hdeq) (by simp)
      · rename_i c0 rest hbuf
        have hc : c0 = c := by
          have h1 := congrArg Prod.fst hdeq
          simpa using h1
        have h2 := congrArg Prod.snd hdeq
        dsimp only at h2
        intro d hd
        have hd' : d ∈ rest := by
          rw [← h2] at hd
          exact hd
        have hp' := hinv.1
        rw [hbuf] at hp'
        have hpcons := List.pairwise_cons.mp hp'
        exact hc ▸ hpcons.1 d hd'

/-- Claim C9 witness: the amended theorem applied to a concrete run of five
in-order enqueues followed by a dequeue. -/
theorem C9_buffer_sorted_dequeue_min_witness :
    (runJitter (fun _ => 0) defaultJitterConfig
        [.add ⟨[], 5, 0, 0⟩ 0, .add ⟨[], 6, 0, 0⟩ 0, .add ⟨[], 7, 0, 0⟩ 0,
         .add ⟨[], 8, 0, 0⟩ 0, .add ⟨[], 9, 0, 0⟩ 0]).1.buffer.Pairwise chunkLE
      ∧ (5 : ℕ) ≤ 6 := by
  have h := C9_buffer_sorted_dequeue_min (fun _ => 0) defaultJitterConfig
    [.add ⟨[], 5, 0, 0⟩ 0, .add ⟨[], 6, 0, 0⟩ 0, .add ⟨[], 7, 0, 0⟩ 0,
     .add ⟨[], 8, 0, 0⟩ 0, .add ⟨[], 9, 0, 0⟩ 0]
    ⟨[], 5, 0, 0⟩
    { buffer := [⟨[], 6, 0, 0⟩, ⟨[], 7, 0, 0⟩, ⟨[], 8, 0, 0⟩, ⟨[], 9, 0, 0⟩],
      lastAdaptationTime := 0, arrivalTimes := [0, 0, 0, 0, 0],
      statistics := { currentBufferMs := 80, targetBufferMs := 100, jitterMs := 0,
                      packetLoss := 5, bufferUnderruns := 0, bufferOverruns := 0,
                      totalPackets := 5, outOfOrderPackets := 0 },
      expectedSequence := 10 }
    (by norm_num [runJitter, jitterStep, addChunk, getNextChunk, initJitterState,
      defaultJitterConfig, getCurrentBufferMs, adaptBufferSize, insertChunkInOrder,
      dropOldestChunks, calculateJitter])
  exact ⟨h.1, h.2 ⟨[], 6, 0, 0⟩ (List.mem_cons_self _ _)⟩

/-- Claim C2 (counterexample): with the default configuration (`min = 20`,
initial `target = 100`) and two buffered 20 ms frames the depth is 40 ms —
below the target, so the claim requires `null` *and* an underrun increment.
The call returns `null` but leaves the underrun counter untouched: the
source only counts an underrun when the depth is below `minBufferMs`. -/
theorem C2_counterexample :
    (getNextChunk defaultJitterConfig
        (runJitter (fun _ => 0) defaultJitterConfig
          [.add ⟨[], 0, 0, 0⟩ 0, .add ⟨[], 1, 0, 0⟩ 0]).1).1 = none
      ∧ (getNextChunk defaultJitterConfig
          (runJitter (fun _ => 0) defaultJitterConfig
            [.add ⟨[], 0, 0, 0⟩ 0, .add ⟨[], 1, 0, 0⟩ 0]).1).2.statistics.bufferUnderruns
        = 0
      ∧ (runJitter (fun _ => 0) defaultJitterConfig
          [.add ⟨[], 0, 0, 0⟩ 0, .add ⟨[], 1, 0, 0⟩ 0]).1.statistics.bufferUnderruns = 0
      ∧ getCurrentBufferMs
          (runJitter (fun _ => 0) defaultJitterConfig
            [.add ⟨[], 0, 0, 0⟩ 0, .add ⟨[], 1, 0, 0⟩ 0]).1
        < (runJitter (fun _ => 0) defaultJitterConfig
            [.add ⟨[], 0, 0, 0⟩ 0, .add ⟨[], 1, 0, 0⟩ 0]).1.statistics.targetBufferMs := by
  norm_num [runJitter, jitterStep, addChunk, getNextChunk, initJitterState,
    defaultJitterConfig, getCurrentBufferMs, adaptBufferSize, insertChunkInOrder,
    dropOldestChunks, calculateJitter]

/-- Claim C2 (amended): `getNextChunk` returns the first buffered frame — the
lowest-sequence one, since the buffer is kept sorted — when the depth is at
least both `minBufferMs` and the current target; when the depth is below
`minBufferMs` it returns `null` and increments the underrun counter; when
the depth is between `minBufferMs` and the target it returns `null` without
touching the counter. -/
theorem C2_dequeue_characterization (cfg : JitterBufferConfig) (s : JitterBufferState) :
    (getCurrentBufferMs s < cfg.minBufferMs →
        getNextChunk cfg s
          = (none,
             { s with statistics :=
                { s.statistics with
                  bufferUnderruns := s.statistics.bufferUnderruns + 1 } }))
      ∧ (cfg.minBufferMs ≤ getCurrentBufferMs s →
          getCurrentBufferMs s < s.statistics.targetBufferMs →
          getNextChunk cfg s = (none, s))
      ∧ (cfg.minBufferMs ≤ getCurrentBufferMs s →
          s.statistics.targetBufferMs ≤ getCurrentBufferMs s →
          (getNextChunk cfg s).1 = s.buffer.head?
          ∧ (getNextChunk cfg s).2.buffer = s.buffer.tail
          ∧ (getNextChunk cfg s).2.statistics.bufferUnderruns
              = s.statistics.bufferUnderruns
          ∧ (s.buffer.Pairwise chunkLE →
              ∀ c d, (getNextChunk cfg s).1 = some c → d ∈ s.buffer →
                c.sequence ≤ d.sequence)) := by
  refine ⟨?_, ?_, ?_⟩
  · intro h
    unfold getNextChunk
    dsimp only
    rw [if_pos h]
  · intro h1 h2
    unfold getNextChunk
    dsimp only
    rw [if_neg (not_lt.mpr h1), if_pos h2]
  · intro h1 h2
    unfold getNextChunk
    dsimp only
    rw [if_neg (not_lt.mpr h1), if_neg (not_lt.mpr h2)]
    cases hbuf : s.buffer with
    | nil =>
        refine ⟨rfl, by simp [hbuf], rfl, ?_⟩
        intro _ c d hc _
        exact absurd hc (by simp)
    | cons c0 rest =>
        refine ⟨rfl, rfl, rfl, ?_⟩
        intro hp c d hc hd
        have hc0 : c0 = c := by simpa using hc
        have hpcons := List.pairwise_cons.mp hp
        rcases List.mem_cons.mp hd with h | h
        · rw [← hc0, h]
        · exact hc0 ▸ hpcons.1 d h

/-- Claim C2 witness: the amended characterization applied at three concrete
reachable states — an empty buffer (underrun), a two-frame buffer below
target (silent `null`), and a five-frame buffer at target (dequeue). -/
theorem C2_dequeue_characterization_witness :
    getNextChunk defaultJitterConfig (initJitterState defaultJitterConfig)
        = (none,
           { initJitterState defaultJitterConfig with statistics :=
              { (initJitterState defaultJitterConfig).statistics with
                bufferUnderruns :=
                  (initJitterState defaultJitterConfig).statistics.bufferUnderruns + 1 } })
      ∧ getNextChunk defaultJitterConfig
            (runJitter (fun _ => 0) defaultJitterConfig
              [.add ⟨[], 0, 0, 0⟩ 0, .add ⟨[], 1, 0, 0⟩ 0]).1
          = (none,
             (runJitter (fun _ => 0) defaultJitterConfig
               [.add ⟨[], 0, 0, 0⟩ 0, .add ⟨[], 1, 0, 0⟩ 0]).1)
      ∧ (getNextChunk defaultJitterConfig
            (runJitter (fun _ => 0) defaultJitterConfig
              [.add ⟨[], 0, 0, 0⟩ 0, .add ⟨[], 1, 0, 0⟩ 0, .add ⟨[], 2, 0, 0⟩ 0,
               .add ⟨[], 3, 0, 0⟩ 0, .add ⟨[], 4, 0, 0⟩ 0]).1).1
          = (runJitter (fun _ => 0) defaultJitterConfig
              [.add ⟨[], 0, 0, 0⟩ 0, .add ⟨[], 1, 0, 0⟩ 0, .add ⟨[], 2, 0, 0⟩ 0,
               .add ⟨[], 3, 0, 0⟩ 0, .add ⟨[], 4, 0, 0⟩ 0]).1.buffer.head? := by
  refine ⟨(C2_dequeue_characterization defaultJitterConfig _).1 ?_,
    (C2_dequeue_characterization defaultJitterConfig _).2.1 ?_ ?_,
    ((C2_dequeue_characterization defaultJitterConfig _).2.2 ?_ ?_).1⟩ <;>
    norm_num [runJitter, jitterStep, addChunk, getNextChunk, initJitterState,
      defaultJitterConfig, getCurrentBufferMs, adaptBufferSize, insertChunkInOrder,
      dropOldestChunks, calculateJitter]

/-! ## Upstream client (`truevoice-client.ts`)

The client's connection bookkeeping, reduced to the fields the reconnect
policy reads and writes.  `scheduledReconnectDelay` records the delay of
the timer armed by `scheduleReconnect` (`none` when no timer was armed by
the step under consideration). -/

/-- Embeds `maxReconnectAttempts` field initialiser. -/
def maxReconnectAttempts : ℕ := 5

structure TVClientState where
  reconnectAttempts : ℕ
  reconnectDelay : ℕ
  isConnecting : Bool
  isConnected : Bool
  scheduledReconnectDelay : Option ℕ
deriving DecidableEq

/-- Client immediately after construction. -/
def initTVClient : TVClientState :=
  { reconnectAttempts := 0, reconnectDelay := 1000,
    isConnecting := false, isConnected := false, scheduledReconnectDelay := none }

/-- Embeds `scheduleReconnect()`: increment the attempt counter and arm a timer for
`Math.min(reconnectDelay · 2^(attempts − 1), 30000)` milliseconds. -/
def scheduleReconnect (s : TVClientState) : TVClientState :=
  let attempts := s.reconnectAttempts + 1
  { s with
    reconnectAttempts := attempts,
    scheduledReconnectDelay :=
      some (min (s.reconnectDelay * 2 ^ (attempts - 1)) 30000) }

/-- An event on the client: the socket `open`/`close` handlers, a
`connect()` or `disconnect()` call, or the reconnect timer firing. -/
inductive TVEvent
  | wsOpen
  | wsClose (code : ℕ)
  | connectCall
  | timerFire
  | disconnectCall

/-- One transition of the client state. -/
def tvStep (s : TVClientState) : TVEvent → TVClientState
  | .wsOpen =>
      { s with isConnecting := false, isConnected := true,
               reconnectAttempts := 0, reconnectDelay := 1000 }
  | .wsClose code =>
      let s1 := { s with isConnected := false, isConnecting := false }
      if code ≠ 1000 ∧ s1.reconnectAttempts < maxReconnectAttempts
      then scheduleReconnect s1
      else s1
  | .connectCall =>
      if s.isConnecting || s.isConnected then s
      else { s with isConnecting := true }
  | .timerFire =>
      let s1 := { s with scheduledReconnectDelay := none }
      if s1.isConnected then s1
      else if s1.isConnecting || s1.isConnected then s1
      else { s1 with isConnecting := true }
  | .disconnectCall => { s with isConnected := false, isConnecting := false }

/-- Client state after construction and an arbitrary event sequence. -/
def tvRun (evs : List TVEvent) : TVClientState := evs.foldl tvStep initTVClient

theorem tv_invariant (evs : List TVEvent) :
    (tvRun evs).reconnectAttempts ≤ maxReconnectAttempts
      ∧ (tvRun evs).reconnectDelay = 1000 := by
  have hstep : ∀ (s : TVClientState) (e : TVEvent),
      s.reconnectAttempts ≤ maxReconnectAttempts → s.reconnectDelay = 1000 →
      (tvStep s e).reconnectAttempts ≤ maxReconnectAttempts
        ∧ (tvStep s e).reconnectDelay = 1000 := by
    intro s e h1 h2
    cases e with
    | wsOpen =>
        unfold tvStep
        dsimp only
        exact ⟨Nat.zero_le _, rfl⟩
    | wsClose code =>
        unfold tvStep scheduleReconnect
        dsimp only
        split
        · rename_i hcond
          exact ⟨hcond.2, h2⟩
        · exact ⟨h1, h2⟩
    | connectCall =>
        unfold tvStep
        dsimp only
        split
        · exact ⟨h1, h2⟩
        · exact ⟨h1, h2⟩
    | timerFire =>
        unfold tvStep
        dsimp only
        split
        · exact ⟨h1, h2⟩
        · split
          · exact ⟨h1, h2⟩
          · exact ⟨h1, h2⟩
    | disconnectCall =>
        unfold tvStep
        dsimp only
        exact ⟨h1, h2⟩
  have haux : ∀ (l : List TVEvent) (s : TVClientState),
      s.reconnectAttempts ≤ maxReconnectAttempts → s.reconnectDelay = 1000 →
      (l.foldl tvStep s).reconnectAttempts ≤ maxReconnectAttempts
        ∧ (l.foldl tvStep s).reconnectDelay = 1000 := by
    intro l
    induction l with
    | nil => intro s h1 h2; exact ⟨h1, h2⟩
    | cons e rest ih =>
        intro s h1 h2
        obtain ⟨h1', h2'⟩ := hstep s e h1 h2
        exact ih (tvStep s e) h1' h2'
  exact haux evs initTVClient (Nat.zero_le _) rfl

/-- Claim C6: after any event sequence the reconnect-attempt counter is at
most 5; a successful open resets it to zero; a close with code `1000` never
arms a reconnect timer; and a close with any other code arms one exactly
when fewer than 5 attempts were made, with delay
`min(1000 · 2^(n−1), 30000)` ms for the `n`-th attempt (counter going from
`n−1` to `n`), i.e. the sequence `1, 2, 4, 8, 16, 30, 30, …` seconds. -/
theorem C6_reconnect_policy (evs : List TVEvent) (c : ℕ) :
    (tvRun evs).reconnectAttempts ≤ 5
      ∧ (tvStep (tvRun evs) .wsOpen).reconnectAttempts = 0
      ∧ (tvStep (tvRun evs) (.wsClose c)).scheduledReconnectDelay
          = (if c ≠ 1000 ∧ (tvRun evs).reconnectAttempts < 5
             then some (min (1000 * 2 ^ (tvRun evs).reconnectAttempts) 30000)
             else (tvRun evs).scheduledReconnectDelay)
      ∧ (tvStep (tvRun evs) (.wsClose 1000)).scheduledReconnectDelay
          = (tvRun evs).scheduledReconnectDelay := by
  obtain ⟨hle, hdelay⟩ := tv_invariant evs
  refine ⟨hle, rfl, ?_, ?_⟩
  · unfold tvStep scheduleReconnect
    dsimp only
    by_cases hcond : c ≠ 1000 ∧ (tvRun evs).reconnectAttempts < 5
    · rw [if_pos hcond, if_pos (show c ≠ 1000
        ∧ (tvRun evs).reconnectAttempts < maxReconnectAttempts from hcond)]
      rw [hdelay]
      simp
    · rw [if_neg hcond, if_neg (show ¬(c ≠ 1000
        ∧ (tvRun evs).reconnectAttempts < maxReconnectAttempts) from hcond)]
  · unfold tvStep
    dsimp only
    rw [if_neg (by simp)]

/-! ## Audio sequencer (`telephony-service.ts`, `AudioSequencer`)

Sequence numbers are `bigint` in the source and are modelled with `ℤ`.
`processChunk` reads only the chunk's `sequence` field and returns the chunk
itself unchanged, so the model takes the sequence number directly. -/

structure SequenceStatistics where
  totalChunks : ℕ
  outOfOrderChunks : ℕ
  duplicateChunks : ℕ
  missingChunks : ℕ
  gapsDetected : ℕ
  lastSequence : ℤ
  expectedSequence : ℤ
deriving DecidableEq

structure AudioSequencerState where
  sequenceCounter : ℤ
  expectedSequence : ℤ
  receivedSequences : Finset ℤ
  statistics : SequenceStatistics
deriving DecidableEq

/-- Sequencer immediately after construction; `reset()` restores exactly
this state. -/
def initSequencerState : AudioSequencerState :=
  { sequenceCounter := 0, expectedSequence := 0, receivedSequences := ∅,
    statistics := { totalChunks := 0, outOfOrderChunks := 0, duplicateChunks := 0,
                    missingChunks := 0, gapsDetected := 0, lastSequence := 0,
                    expectedSequence := 0 } }

/-- The `missingSequences` list: `[expectedSequence, chunk.sequence)`. -/
def missingRange (lo hi : ℤ) : List ℤ :=
  (List.range (hi - lo).toNat).map (fun i => lo + i)

/-- The classification result of `processChunk` (the chunk itself is
returned unchanged and omitted). -/
structure ProcessChunkResult where
  isOutOfOrder : Bool
  isDuplicate : Bool
  hasGap : Bool
  missingSequences : List ℤ
deriving DecidableEq

/-- Embeds `processChunk(chunk)` for a chunk with sequence `cseq`: classification
plus the updated sequencer state. -/
def processChunk (s : AudioSequencerState) (cseq : ℤ) :
    ProcessChunkResult × AudioSequencerState :=
  let stats0 := { s.statistics with
                  totalChunks := s.statistics.totalChunks + 1, lastSequence := cseq }
  if cseq ∈ s.receivedSequences then
    (⟨false, true, false, []⟩,
     { s with statistics :=
        { stats0 with duplicateChunks := stats0.duplicateChunks + 1 } })
  else
    let received1 := insert cseq s.receivedSequences
    let missing := if s.expectedSequence < cseq
      then missingRange s.expectedSequence cseq else []
    let stats1 :=
      if s.expectedSequence < cseq then
        { stats0 with missingChunks := stats0.missingChunks + missing.length,
                      gapsDetected := stats0.gapsDetected + 1 }
      else stats0
    let stats2 :=
      if cseq < s.expectedSequence then
        { stats1 with outOfOrderChunks := stats1.outOfOrderChunks + 1 }
      else stats1
    let expected1 := if cseq ≥ s.expectedSequence then cseq + 1 else s.expectedSequence
    let received2 :=
      if 1000 < received1.card then
        received1.filter (fun q => ¬ q < expected1 - 1000)
      else received1
    (⟨decide (cseq < s.expectedSequence), false, decide (s.expectedSequence < cseq), missing⟩,
     { s with expectedSequence := expected1, receivedSequences := received2,
              statistics := stats2 })

/-- Claim C10: a duplicate chunk is classified `{duplicate, not out-of-order,
no gap, no missing sequences}` and changes only the `totalChunks` and
`duplicateChunks` counters and `lastSequence`, leaving the expected-sequence
cursor and the seen-set untouched; for a non-duplicate chunk, out-of-order
and gap are mutually exclusive, and an out-of-order chunk never advances the
expected-sequence cursor. -/
theorem C10_processChunk_effects (s : AudioSequencerState) (cseq : ℤ) :
    (cseq ∈ s.receivedSequences →
        processChunk s cseq
          = (⟨false, true, false, []⟩,
             { s with statistics :=
                { s.statistics with
                  totalChunks := s.statistics.totalChunks + 1,
                  duplicateChunks := s.statistics.duplicateChunks + 1,
                  lastSequence := cseq } }))
      ∧ (cseq ∉ s.receivedSequences →
          ¬((processChunk s cseq).1.isOutOfOrder = true
              ∧ (processChunk s cseq).1.hasGap = true)
          ∧ ((processChunk s cseq).1.isOutOfOrder = true →
              (processChunk s cseq).2.expectedSequence = s.expectedSequence)) := by
  constructor
  · intro h
    unfold processChunk
    dsimp only
    rw [if_pos h]
  · intro h
    constructor
    · unfold processChunk
      dsimp only
      rw [if_neg h]
      dsimp only
      intro hcontra
      obtain ⟨hc1, hc2⟩ := hcontra
      rw [decide_eq_true_eq] at hc1 hc2
      omega
    · intro h1
      unfold processChunk at h1 ⊢
      dsimp only at h1 ⊢
      rw [if_neg h] at h1 ⊢
      dsimp only at h1 ⊢
      rw [decide_eq_true_eq] at h1
      rw [if_neg (not_le.mpr h1)]

/-- Claim C10 witness: the theorem applied at a concrete state (seen-set
`{3}`, expected cursor `7`) with a duplicate chunk (`3`) and an out-of-order
non-duplicate chunk (`5`). -/
theorem C10_processChunk_effects_witness :
    processChunk
        { sequenceCounter := 0, expectedSequence := 7, receivedSequences := {3},
          statistics := { totalChunks := 0, outOfOrderChunks := 0, duplicateChunks := 0,
                          missingChunks := 0, gapsDetected := 0, lastSequence := 0,
                          expectedSequence := 0 } } 3
      = (⟨false, true, false, []⟩,
         { sequenceCounter := 0, expectedSequence := 7, receivedSequences := {3},
           statistics := { totalChunks := 1, outOfOrderChunks := 0, duplicateChunks := 1,
                           missingChunks := 0, gapsDetected := 0, lastSequence := 3,
                           expectedSequence := 0 } })
      ∧ (processChunk
          { sequenceCounter := 0, expectedSequence := 7, receivedSequences := {3},
            statistics := { totalChunks := 0, outOfOrderChunks := 0, duplicateChunks := 0,
                            missingChunks := 0, gapsDetected := 0, lastSequence := 0,
                            expectedSequence := 0 } } 5).2.expectedSequence = 7 := by
  constructor
  · exact (C10_processChunk_effects _ 3).1 (by decide)
  · exact ((C10_processChunk_effects _ 5).2 (by decide)).2 (by decide)

/-! ## Streaming pipeline orchestrator (`streaming-pipeline.ts`)

Only the state touched by `stop()` and the `disconnected` handler is
modelled: the `isActive` flag, the playback interval, the playback
controller, the jitter buffer, the sequencer, the upstream client's
connection flags, and the events emitted upward. -/

/-- Embeds `JitterBuffer.clear()`: empties the buffer and arrival window, resets
the expected cursor and the current-depth statistic (other statistics are
retained). -/
def jitterClear (s : JitterBufferState) : JitterBufferState :=
  { s with buffer := [], arrivalTimes := [], expectedSequence := 0,
           statistics := { s.statistics with currentBufferMs := 0 } }

/-- Embeds `TrueVoiceClient.disconnect()`: closes the socket with code 1000 and
clears the connection flags. -/
def tvDisconnect (s : TVClientState) : TVClientState :=
  { s with isConnected := false, isConnecting := false }

/-- Events the pipeline emits to its owner (the subset relevant here). -/
inductive PipelineEvent
  | started
  | stopped
  | disconnectedEvt (code : ℕ)
deriving DecidableEq

structure PipelineState where
  isActive : Bool
  playbackIntervalActive : Bool
  playback : ControllerState
  jitter : JitterBufferState
  seq : AudioSequencerState
  trueVoice : TVClientState
  events : List PipelineEvent
deriving DecidableEq

/-- Embeds `StreamingPipeline.stop()`: if active, deactivate, stop the playback
controller, clear the playback interval, disconnect the upstream client,
clear the jitter buffer, reset the sequencer and emit `stopped`. -/
def pipelineStop (pcfg : PlaybackConfig) (p : PipelineState) : PipelineState :=
  if ¬ p.isActive then p
  else
    { p with
      isActive := false,
      playback := controllerStop pcfg p.playback,
      playbackIntervalActive := false,
      trueVoice := tvDisconnect p.trueVoice,
      jitter := jitterClear p.jitter,
      seq := initSequencerState,
      events := p.events ++ [.stopped] }

/-- The pipeline's `disconnected` handler for the upstream client: emit
`disconnected` upward, then call `stop()`. -/
def onTrueVoiceDisconnected (pcfg : PlaybackConfig) (code : ℕ)
    (p : PipelineState) : PipelineState :=
  pipelineStop pcfg { p with events := p.events ++ [.disconnectedEvt code] }

/-- An active pipeline mid-call: playback running, one 20 ms frame still
buffered for egress. -/
def activePipelineExample : PipelineState :=
  { isActive := true,
    playbackIntervalActive := true,
    playback := controllerStart 0 (initController defaultPlaybackConfig),
    jitter := { initJitterState defaultJitterConfig with buffer := [⟨[], 0, 0, 0⟩] },
    seq := initSequencerState,
    trueVoice := { initTVClient with isConnected := true },
    events := [.started] }

/-- Claim C1: evaluating the `disconnected` handler at an abnormal upstream
close (code 1006) on an active pipeline with buffered egress audio.  The
handler calls `stop()`: the pipeline deactivates, the playback loop halts,
the jitter buffer is cleared and the sequencer reset, and `stopped` is
emitted — the upstream disconnect does *not* leave the pipeline running,
contradicting the claim (and the repository's own resilience notes). -/
theorem C1_disconnect_stops_pipeline :
    activePipelineExample.isActive = true
      ∧ activePipelineExample.jitter.buffer ≠ []
      ∧ (onTrueVoiceDisconnected defaultPlaybackConfig 1006
          activePipelineExample).isActive = false
      ∧ (onTrueVoiceDisconnected defaultPlaybackConfig 1006
          activePipelineExample).playbackIntervalActive = false
      ∧ (onTrueVoiceDisconnected defaultPlaybackConfig 1006
          activePipelineExample).playback.state.isPlaying = false
      ∧ (onTrueVoiceDisconnected defaultPlaybackConfig 1006
          activePipelineExample).jitter.buffer = []
      ∧ (onTrueVoiceDisconnected defaultPlaybackConfig 1006
          activePipelineExample).seq = initSequencerState
      ∧ (onTrueVoiceDisconnected defaultPlaybackConfig 1006
          activePipelineExample).events
        = [.started, .disconnectedEvt 1006, .stopped] := by
  norm_num [onTrueVoiceDisconnected, pipelineStop, activePipelineExample,
    controllerStop, controllerStart, tvDisconnect, jitterClear, initController,
    defaultPlaybackConfig, initJitterState, defaultJitterConfig, initTVClient,
    initSequencerState]

end VoiceForge
